import Mathlib

/-!
Verification development for the lit-review-rag repository.

Each Python function relevant to the frozen claims is shallowly embedded as a
Lean definition; machine floats are modelled as rationals, Python exceptions
as Option or Except, and external services (Weaviate, OpenAI, the PRNG and
the MD5 hash) as explicit function parameters.
-/

namespace LitReviewRag

/-! ### PDFProcessor.chunk_text_sliding_window (src/pdf_processor.py)

Python: text.split() splits on whitespace and drops empty pieces;
range(0, n, step) raises ValueError when step == 0 (modelled as none) and is
empty when step < 0; words[i : i + chunk_size] is drop-then-take for a
nonnegative chunk_size. -/

/-- Splits a character sequence at characters satisfying p, dropping empty
fragments; cur accumulates the current word reversed. -/
def splitDropAux (p : Char → Bool) : List Char → List Char → List String
  | [], cur => if cur.isEmpty then [] else [String.mk cur.reverse]
  | c :: cs, cur =>
    if p c then
      if cur.isEmpty then splitDropAux p cs []
      else String.mk cur.reverse :: splitDropAux p cs []
    else splitDropAux p cs (c :: cur)

/-- Model of Python str.split() with no arguments: split on whitespace,
dropping empty fragments. -/
def pySplitWs (s : String) : List String :=
  splitDropAux (fun c => c.isWhitespace) s.data []

/-- Model of range(0, stop, step): none models the ValueError raised when
step = 0; a negative step gives the empty range since stop is nonnegative. -/
def pyRangeStep (stop : Nat) (step : Int) : Option (List Nat) :=
  if step = 0 then none
  else if step < 0 then some []
  else some ((List.range ((stop + step.toNat - 1) / step.toNat)).map
      (fun i => i * step.toNat))

/-- The word-window level of PDFProcessor.chunk_text_sliding_window:
windows words[i : i + chunk_size] for i in range(0, len(words), step) with
step = chunk_size - overlap_size, keeping only windows of at least 20 words.
none models the ValueError escaping from range when the step is zero. -/
def chunk_windows (chunk_size overlap_size : Nat) (words : List String) :
    Option (List (List String)) :=
  let step : Int := (chunk_size : Int) - (overlap_size : Int)
  (pyRangeStep words.length step).map (fun idxs =>
    (idxs.map (fun i => (words.drop i).take chunk_size)).filter
      (fun cw => 20 ≤ cw.length))

/-- PDFProcessor.chunk_text_sliding_window: split the text into words, form
the sliding windows, and join each kept window with single spaces. -/
def chunk_text_sliding_window (chunk_size overlap_size : Nat) (text : String) :
    Option (List String) :=
  (chunk_windows chunk_size overlap_size (pySplitWs text)).map
    (fun ws => ws.map (fun cw => " ".intercalate cw))

/-- A concrete 30-word text used as input for the chunker claims. -/
def t30 : String := " ".intercalate (List.replicate 30 ("w"))

/-- A concrete 30-word list used as input for the chunker claims. -/
def wsW30 : List String := List.replicate 30 ("w")

/-! ### SimplePaperStorage.search_chunks (src/simple_storage.py)

Python tokenization is set(re.findall(r'\w+', s.lower())); the score of a
chunk with nonzero overlap is overlap / len(query_words) (modelled in ℚ);
results.sort(key=similarity, reverse=True) is a stable descending sort,
modelled by insertion sort with the relation simGE, which is extensionally
the unique stable descending sort. -/

/-- A stored chunk record as written by SimplePaperStorage.insert_papers;
dict insertion order is modelled by list order. -/
structure StoredChunk where
  paper_id : String
  chunk_index : Nat
  content : String
  title : String
  authors : List String
  doi : String
deriving DecidableEq, Repr

/-- A search result dict produced by search_chunks / search_relevant_chunks. -/
structure SearchResult where
  content : String
  title : String
  authors : List String
  doi : String
  chunk_index : Nat
  paper_id : String
  similarity : ℚ
deriving DecidableEq, Repr

/-- Model of set(re.findall(r'\w+', s.lower())): lowercase the characters,
split into maximal word-character runs, and deduplicate. Only membership and
cardinality of the result are ever used, so the list order chosen by dedup is
irrelevant. -/
def tokenSet (s : String) : List String :=
  (splitDropAux (fun c => !(c.isAlphanum || c == '_')) (s.data.map Char.toLower) []).dedup

/-- The descending comparison used to model
results.sort(key=lambda x: x['similarity'], reverse=True). -/
def simGE (a b : SearchResult) : Prop := b.similarity ≤ a.similarity

instance : DecidableRel simGE := fun a b =>
  inferInstanceAs (Decidable (b.similarity ≤ a.similarity))

instance : IsTotal SearchResult simGE :=
  ⟨fun a b => le_total b.similarity a.similarity⟩

instance : IsTrans SearchResult simGE :=
  ⟨fun _ _ _ h1 h2 => le_trans h2 h1⟩

/-- The per-chunk body of the search loop: word overlap with the query token
set, kept with score overlap / len(query_words) when the overlap is
positive. -/
def scoreChunk (qt : List String) (c : StoredChunk) : Option SearchResult :=
  let overlap := ((tokenSet c.content).filter (fun w => w ∈ qt)).length
  if 0 < overlap then
    some { content := c.content, title := c.title, authors := c.authors,
           doi := c.doi, chunk_index := c.chunk_index, paper_id := c.paper_id,
           similarity := (overlap : ℚ) / ((qt.length : ℚ)) }
  else none

/-- The number of distinct lowercase word tokens shared by the query and a
chunk's content. -/
def overlapCount (query : String) (c : StoredChunk) : Nat :=
  ((tokenSet c.content).filter (fun w => w ∈ tokenSet query)).length

/-- The scored, zero-overlap-filtered result list, in storage order. -/
def scoredResults (chunks : List StoredChunk) (query : String) : List SearchResult :=
  chunks.filterMap (scoreChunk (tokenSet query))

/-- SimplePaperStorage.search_chunks: score all stored chunks, sort by
similarity descending (stable), and return the first top_k. -/
def search_chunks (chunks : List StoredChunk) (query : String) (top_k : Nat) :
    List SearchResult :=
  (List.insertionSort simGE (scoredResults chunks query)).take top_k

/-- A concrete stored chunk whose content shares two tokens with the query
alpha beta. -/
def exC1 : StoredChunk :=
  { paper_id := "p1", chunk_index := 0, content := "alpha beta",
    title := "T1", authors := [], doi := "" }

/-- A concrete stored chunk whose content shares one token with the query
alpha beta. -/
def exC2 : StoredChunk :=
  { paper_id := "p2", chunk_index := 0, content := "alpha gamma",
    title := "T2", authors := [], doi := "" }

/-- Two concrete stored chunks used to instantiate the lexical-search
claims. -/
def exChunks : List StoredChunk := [exC1, exC2]

/-- The expected top search result for the query alpha beta over exChunks:
both tokens match, so the similarity is 2 / 2 = 1. -/
def exR1 : SearchResult :=
  { content := "alpha beta", title := "T1", authors := [], doi := "",
    chunk_index := 0, paper_id := "p1", similarity := 1 }

/-- The expected second search result: one of the two query tokens matches,
so the similarity is 1 / 2. -/
def exR2 : SearchResult :=
  { content := "alpha gamma", title := "T2", authors := [], doi := "",
    chunk_index := 0, paper_id := "p2", similarity := 1 / 2 }

/-! ### RAGQueryManager.search_relevant_chunks (src/rag_queries.py,
src/rag_queries_mock.py)

The Weaviate response is modelled as the list of returned objects; a missing
distance is some-free (none). The Python expression
(1 - obj.metadata.distance if obj.metadata.distance else 0) takes the else
branch for both None and 0.0, since 0.0 is falsy. -/

/-- One object of the Weaviate near_text / near_vector response. -/
structure WeaviateObject where
  content_chunk : String
  title : String
  authors : List String
  doi : String
  chunk_index : Nat
  paper_id : String
  distance : Option ℚ
deriving DecidableEq, Repr

/-- Model of (1 - obj.metadata.distance if obj.metadata.distance else 0):
Python truthiness sends both None and 0.0 to the else branch. -/
def pySimilarity (d : Option ℚ) : ℚ :=
  match d with
  | some d => if d = 0 then 0 else 1 - d
  | none => 0

/-- RAGQueryManager.search_relevant_chunks (identical conversion in
MockRAGQueryManager.search_relevant_chunks): map each returned object to a
result dict with the similarity conversion above. -/
def search_relevant_chunks (objects : List WeaviateObject) : List SearchResult :=
  objects.map (fun o =>
    { content := o.content_chunk, title := o.title, authors := o.authors,
      doi := o.doi, chunk_index := o.chunk_index, paper_id := o.paper_id,
      similarity := pySimilarity o.distance })

/-- A concrete retrieved object whose vector distance is exactly 0. -/
def exObj0 : WeaviateObject :=
  { content_chunk := "c", title := "T", authors := [], doi := "",
    chunk_index := 0, paper_id := "p1", distance := some 0 }

/-- A concrete retrieved object with vector distance 1 / 2. -/
def exObjHalf : WeaviateObject :=
  { content_chunk := "c", title := "T", authors := [], doi := "",
    chunk_index := 0, paper_id := "p1", distance := some (1 / 2) }

/-- The result expected for exObjHalf: similarity 1 - 1 / 2 = 1 / 2. -/
def exRHalf : SearchResult :=
  { content := "c", title := "T", authors := [], doi := "",
    chunk_index := 0, paper_id := "p1", similarity := 1 / 2 }

/-! ### RAGQueryManager._format_sources (src/rag_queries.py; identical code in
src/rag_queries_simple.py and src/rag_queries_mock.py) -/

/-- A citation entry emitted by _format_sources. -/
structure Source where
  title : String
  authors : String
  doi : String
  chunk_index : Nat
deriving DecidableEq, Repr

/-- The source dict built for a kept chunk. -/
def mkSource (c : SearchResult) : Source :=
  { title := c.title, authors := ", ".intercalate c.authors, doi := c.doi,
    chunk_index := c.chunk_index }

/-- The loop of _format_sources with its seen_papers accumulator (membership
in the list models membership in the Python set). -/
def formatSourcesAux (seen : List String) : List SearchResult → List Source
  | [] => []
  | c :: rest =>
    if c.paper_id ∈ seen then formatSourcesAux seen rest
    else mkSource c :: formatSourcesAux (c.paper_id :: seen) rest

/-- RAGQueryManager._format_sources. -/
def format_sources (chunks : List SearchResult) : List Source :=
  formatSourcesAux [] chunks

/-- The claim-side characterization of deduplication: keep each chunk whose
paper_id has not occurred earlier in the ranked list, i.e. the first chunk
per distinct paper_id. -/
def firstPerId : List SearchResult → List SearchResult
  | [] => []
  | c :: rest => c :: firstPerId (rest.filter (fun d => d.paper_id ≠ c.paper_id))
termination_by l => l.length
decreasing_by
  simp only [List.length_cons]
  exact Nat.lt_succ_of_le (List.length_filter_le _ _)

/-! ### chat_with_papers / generate_gap_analysis (src/rag_queries.py)

The OpenAI completion service is modelled as a function from the message list
to Except String String (error = raised exception, message preserved); the
retrieval layer is a function from query and top_k to the chunk list. The
returned pair carries the response together with the number of completion
calls made. -/

/-- A role-tagged chat message. -/
structure ChatMessage where
  role : String
  content : String
deriving DecidableEq, Repr

/-- The response dict of chat_with_papers (absent keys modelled as ""). -/
structure ChatResponse where
  success : Bool
  error : String
  answer : String
  sources : List Source
deriving DecidableEq, Repr

/-- The response dict of generate_gap_analysis. -/
structure GapResponse where
  success : Bool
  error : String
  analysis : String
  sources : List Source
deriving DecidableEq, Repr

/-- RAGQueryManager._prepare_context: one formatted block per chunk,
enumerated from 1, joined by newlines. -/
def prepare_context (chunks : List SearchResult) : String :=
  "\n".intercalate (chunks.enum.map (fun p =>
    "\nPaper " ++ toString (p.1 + 1) ++ ": " ++ p.2.title ++
    "\nAuthors: " ++ ", ".intercalate p.2.authors ++
    "\nDOI: " ++ p.2.doi ++
    "\nContent: " ++ p.2.content ++ "\n---\n"))

/-- The user prompt assembled by chat_with_papers. -/
def chatPrompt (question context : String) : String :=
  "\nBased on the following research papers, answer the question: " ++ question ++
  "\n\nResearch Papers Context:\n" ++ context ++
  "\n\nPlease provide a comprehensive answer with specific citations when possible.\n"

/-- The user prompt assembled by generate_gap_analysis. -/
def gapPrompt (topic context : String) : String :=
  "\nBased on these research papers about \x22" ++ topic ++
  "\x22, identify key research gaps and future opportunities. \n" ++
  "Focus on methodological limitations, unexplored areas, and conflicting findings.\n" ++
  "\nResearch Papers Context:\n" ++ context ++
  "\n\nPlease provide:\n1. Key research gaps (3-5 specific gaps)\n" ++
  "2. Future research opportunities (3-5 opportunities)\n" ++
  "3. Methodological limitations identified\n" ++
  "4. Areas that need more investigation\n" ++
  "\nFormat your response as a structured analysis.\n"

/-- RAGQueryManager.chat_with_papers. The second component counts calls to the
completion service. search models self.search_relevant_chunks (query, top_k);
complete models openai_client.chat.completions.create. -/
def chat_with_papers (search : String → Nat → List SearchResult)
    (complete : List ChatMessage → Except String String)
    (question : String) (conversation_history : List ChatMessage) :
    ChatResponse × Nat :=
  let relevant_chunks := search question 8
  if relevant_chunks.isEmpty then
    ({ success := false, error := "No relevant information found in the papers",
       answer := "", sources := [] }, 0)
  else
    let context := prepare_context relevant_chunks
    let history := conversation_history.drop (conversation_history.length - 4)
    let messages :=
      { role := "system",
        content := "You are a research assistant. Answer questions based on the provided research papers. Include specific citations and references when possible." }
      :: history ++
      [{ role := "user", content := chatPrompt question context }]
    match complete messages with
    | Except.ok answer =>
        ({ success := true, error := "", answer := answer,
           sources := format_sources relevant_chunks }, 1)
    | Except.error e =>
        ({ success := false, error := "Error generating answer: " ++ e,
           answer := "", sources := [] }, 1)

/-- RAGQueryManager.generate_gap_analysis, instrumented like
chat_with_papers. -/
def generate_gap_analysis (search : String → Nat → List SearchResult)
    (complete : List ChatMessage → Except String String)
    (topic : String) : GapResponse × Nat :=
  let relevant_chunks := search topic 10
  if relevant_chunks.isEmpty then
    ({ success := false, error := "No relevant papers found for the given topic",
       analysis := "", sources := [] }, 0)
  else
    let context := prepare_context relevant_chunks
    let messages :=
      [{ role := "system",
         content := "You are a research analyst expert in identifying research gaps and opportunities." },
       { role := "user", content := gapPrompt topic context }]
    match complete messages with
    | Except.ok analysis_text =>
        ({ success := true, error := "", analysis := analysis_text,
           sources := format_sources relevant_chunks }, 1)
    | Except.error e =>
        ({ success := false, error := "Error generating analysis: " ++ e,
           analysis := "", sources := [] }, 1)

/-! ### RAGQueryManager.insert_papers (src/rag_queries.py)

The Weaviate insert is modelled as a function from the chunk dict to
Except String Unit (error = raised exception, message preserved); uuid4 is
modelled as a function from the paper position to its id. The result pair is
the returned bool together with the number of successful insert calls, the
observable side effect the claim is about. -/

/-- A paper dict as passed to insert_papers. -/
structure PaperData where
  title : String
  authors : List String
  abstract : String
  publication_year : Int
  doi : String
  chunks : List String
deriving DecidableEq, Repr

/-- The chunk dict built for each chunk before insertion. -/
structure InsertChunkData where
  title : String
  authors : List String
  abstract : String
  content_chunk : String
  publication_year : Int
  doi : String
  chunk_index : Nat
  paper_id : String
deriving DecidableEq, Repr

/-- Substring test on character lists, modelling Python's in on str. -/
def containsSub (needle hay : List Char) : Bool :=
  hay.tails.any (fun t => needle.isPrefixOf t)

/-- Model of ("429" in error_msg or "quota" in error_msg.lower()). -/
def isQuotaError (msg : String) : Bool :=
  containsSub ("429").data msg.data ||
  containsSub ("quota").data (msg.data.map Char.toLower)

/-- The inner chunk loop of insert_papers: a quota error raises ValueError
(modelled as Except.error carrying the successful-insert count so far, caught
by the outer handler); any other insert error only logs and skips the
chunk. -/
def insertChunksLoop (ins : InsertChunkData → Except String Unit)
    (paper : PaperData) (pid : String) :
    List String → Nat → Nat → Except Nat Nat
  | [], _, acc => Except.ok acc
  | c :: rest, idx, acc =>
    match ins { title := paper.title, authors := paper.authors,
                abstract := paper.abstract, content_chunk := c,
                publication_year := paper.publication_year, doi := paper.doi,
                chunk_index := idx, paper_id := pid } with
    | Except.ok _ => insertChunksLoop ins paper pid rest (idx + 1) (acc + 1)
    | Except.error msg =>
        if isQuotaError msg then Except.error acc
        else insertChunksLoop ins paper pid rest (idx + 1) acc

/-- The outer paper loop of insert_papers. -/
def insertPapersLoop (ins : InsertChunkData → Except String Unit)
    (uuid : Nat → String) : List PaperData → Nat → Nat → Except Nat Nat
  | [], _, acc => Except.ok acc
  | p :: rest, i, acc =>
    match insertChunksLoop ins p (uuid i) p.chunks 0 acc with
    | Except.ok acc2 => insertPapersLoop ins uuid rest (i + 1) acc2
    | Except.error acc2 => Except.error acc2

/-- RAGQueryManager.insert_papers: returns True on normal completion; the
raised quota ValueError is caught by the outer handler, which returns False.
The second component is the number of chunks actually inserted. -/
def insert_papers (ins : InsertChunkData → Except String Unit)
    (uuid : Nat → String) (papers_data : List PaperData) : Bool × Nat :=
  match insertPapersLoop ins uuid papers_data 0 0 with
  | Except.ok total => (true, total)
  | Except.error total => (false, total)

/-- A concrete two-chunk paper used to instantiate the insertion claims. -/
def exPaper : PaperData :=
  { title := "t", authors := [], abstract := "", publication_year := 0,
    doi := "", chunks := [("c1"), ("c2")] }

/-! ### MockVectorizer.vectorize (src/mock_vectorizer.py)

The MD5-derived seed and the seeded PRNG are modelled as parameters hashSeed
and prng (both pure functions, as in Python after random.seed(seed)); floats
are modelled as rationals. The final L2 normalization divides by a real
square root, so it appears in the theorem about this definition rather than
as a separate definition. -/

/-- The vector built by the loop in MockVectorizer.vectorize before
normalization: position i holds (ord(text[i]) / 255) * 2 - 1 when i is in
range of the text, and a PRNG draw otherwise. -/
def preVector (hashSeed : String → Nat) (prng : Nat → Nat → ℚ)
    (vector_dim : Nat) (text : String) : List ℚ :=
  let seed := hashSeed text
  let chars := text.data
  (List.range vector_dim).map (fun i =>
    if i < chars.length then
      (((chars.getD (i % chars.length) ' ').toNat : ℚ)) / 255 * 2 - 1
    else prng seed i)

/-- Sum of squares of a rational vector, the square of its L2 norm. -/
def sumSq (v : List ℚ) : ℚ := (v.map (fun x => x * x)).sum

/-! ## Theorems -/

/-- Characterization of the chunker for a positive step: windows start at the
offsets i * (chunk_size - overlap) for i below the ceiling of
word count / step, and windows of fewer than 20 words are filtered out. -/
theorem chunk_windows_eq (cs ov : Nat) (ws : List String) (h : ov < cs) :
    chunk_windows cs ov ws = some
      (((List.range ((ws.length + (cs - ov) - 1) / (cs - ov))).map
          (fun i => (ws.drop (i * (cs - ov))).take cs)).filter
        (fun cw => 20 ≤ cw.length)) := by
  have h0 : ¬((cs : Int) - (ov : Int) = 0) := by omega
  have h1 : ¬((cs : Int) - (ov : Int) < 0) := by omega
  have h2 : ((cs : Int) - (ov : Int)).toNat = cs - ov := by omega
  simp [chunk_windows, pyRangeStep, h0, h1, h2, List.map_map]
  rfl

/-- Claim C2 (amended): for overlap ≥ chunk_size the chunker does not raise a
ConfigError (no such error exists in the code): when overlap exceeds
chunk_size the range step is negative, the range is empty and the chunker
returns an ordinary empty chunk list; only when overlap equals chunk_size
does the call fail, with the ValueError raised by range for a zero step. -/
theorem claim_C2_amended (cs ov : Nat) (ws : List String) (h : cs ≤ ov) :
    chunk_windows cs ov ws = if ov = cs then none else some [] := by
  by_cases he : ov = cs
  · have h0 : ((cs : Int) - (ov : Int)) = 0 := by omega
    simp [chunk_windows, pyRangeStep, h0, he]
  · have h0 : ¬((cs : Int) - (ov : Int) = 0) := by omega
    have h1 : ((cs : Int) - (ov : Int)) < 0 := by omega
    simp [chunk_windows, pyRangeStep, h0, h1, he]

/-- Claim C2 witness: the amended statement evaluated at chunk_size 5,
overlap 7 on a 30-word list. -/
theorem claim_C2_witness :
    (5 : Nat) ≤ 7 ∧
    chunk_windows 5 7 wsW30 = if (7 : Nat) = 5 then none else some [] :=
  ⟨by decide, claim_C2_amended 5 7 wsW30 (by decide)⟩

/-- Claim C2 counterexample: with chunk_size 5 and overlap 7 ≥ 5 on a 30-word
text, the chunking call does not fail; it returns a normal (empty) chunk
list, contradicting the claim that every overlap ≥ chunk_size input fails
with a ConfigError. -/
theorem claim_C2_counterexample :
    chunk_text_sliding_window 5 7 t30 = some [] ∧
    some ([] : List String) ≠ none := by
  constructor
  · decide
  · decide

/-- Claim C4: for overlap < chunk_size, window i of the chunker is the word
slice starting at offset i * step with step = chunk_size - overlap, windows
being produced while the start offset is below the word count (the range
bound is the ceiling of count / step), shorter-than-20 windows filtered; in
particular every 600-word sequence with chunk_size 250 and overlap 50 yields
exactly the 3 chunks [0:250], [200:450] and [400:600], the last retained
since it has 200 ≥ 20 words. -/
theorem claim_C4_sliding_offsets (cs ov : Nat) (ws : List String) (h : ov < cs) :
    chunk_windows cs ov ws = some
      (((List.range ((ws.length + (cs - ov) - 1) / (cs - ov))).map
          (fun i => (ws.drop (i * (cs - ov))).take cs)).filter
        (fun cw => 20 ≤ cw.length)) ∧
    ∀ ws2 : List String, ws2.length = 600 →
      chunk_windows 250 50 ws2 =
        some [ws2.take 250, (ws2.drop 200).take 250, (ws2.drop 400).take 250] := by
  refine ⟨chunk_windows_eq cs ov ws h, ?_⟩
  intro ws2 hlen
  rw [chunk_windows_eq 250 50 ws2 (by norm_num)]
  have hq : (ws2.length + (250 - 50) - 1) / (250 - 50) = 3 := by
    rw [hlen]
  rw [hq]
  have hr : List.range 3 = [0, 1, 2] := by decide
  rw [hr]
  simp [List.filter, List.length_take, List.length_drop, hlen]

/-- Claim C4 witness: the characterization and the 600-word scenario
evaluated on a concrete 600-word list. -/
theorem claim_C4_witness :
    ((50 : Nat) < 250 ∧ (List.replicate 600 ("w") : List String).length = 600) ∧
    chunk_windows 250 50 (List.replicate 600 ("w")) =
      some [(List.replicate 600 ("w") : List String).take 250,
            ((List.replicate 600 ("w") : List String).drop 200).take 250,
            ((List.replicate 600 ("w") : List String).drop 400).take 250] :=
  ⟨⟨by norm_num, List.length_replicate 600 ("w")⟩,
   (claim_C4_sliding_offsets 250 50 [] (by norm_num)).2
     (List.replicate 600 ("w")) (List.length_replicate 600 ("w"))⟩

/-- A filter whose predicate holds on every element except possibly the last
drops at most one element. -/
theorem length_filter_of_all_but_last {α : Type} (d : α) (p : α → Bool) :
    ∀ W : List α, (∀ i, i + 1 < W.length → p (W.getD i d) = true) →
      W.length ≤ (W.filter p).length + 1 := by
  intro W
  induction W with
  | nil => intro _; simp
  | cons a t ih =>
    intro hp
    cases t with
    | nil => simp
    | cons b t2 =>
      have hpa : p a = true := hp 0 (by simp)
      have ht : (b :: t2).length ≤ ((b :: t2).filter p).length + 1 := by
        apply ih
        intro i hi
        have := hp (i + 1) (by simpa using Nat.succ_lt_succ hi)
        simpa using this
      rw [List.filter_cons, if_pos hpa]
      simp only [List.length_cons] at ht ⊢
      omega

/-- Claim C5 (amended): every kept chunk window has at least 20 words; and
when the step chunk_size - overlap is itself at least 20, every window other
than the last has at least 20 words, so at most the final window is dropped
(for smaller steps this fails, see the counterexample). -/
theorem claim_C5_min_floor (cs ov : Nat) (ws : List String) (h : ov < cs) :
    (∀ L, chunk_windows cs ov ws = some L → ∀ w ∈ L, 20 ≤ w.length) ∧
    (20 ≤ cs - ov →
      (∀ i, i + 1 < (ws.length + (cs - ov) - 1) / (cs - ov) →
        20 ≤ ((ws.drop (i * (cs - ov))).take cs).length) ∧
      ∃ L, chunk_windows cs ov ws = some L ∧
        (ws.length + (cs - ov) - 1) / (cs - ov) ≤ L.length + 1) := by
  have hwin := chunk_windows_eq cs ov ws h
  constructor
  · intro L hL w hw
    rw [hwin] at hL
    have hL2 := Option.some.inj hL
    subst hL2
    have := List.of_mem_filter hw
    simpa using this
  · intro h20
    have hstep : ∀ i, i + 1 < (ws.length + (cs - ov) - 1) / (cs - ov) →
        20 ≤ ((ws.drop (i * (cs - ov))).take cs).length := by
      intro i hi
      have hlen : ((ws.drop (i * (cs - ov))).take cs).length =
          min cs (ws.length - i * (cs - ov)) := by
        simp [List.length_take, List.length_drop]
      rw [hlen, Nat.le_min]
      have hdm := Nat.div_add_mod (ws.length + (cs - ov) - 1) (cs - ov)
      have hmlt : (ws.length + (cs - ov) - 1) % (cs - ov) < cs - ov :=
        Nat.mod_lt _ (by omega)
      have hmul : (cs - ov) * (i + 2) ≤
          (cs - ov) * ((ws.length + (cs - ov) - 1) / (cs - ov)) :=
        Nat.mul_le_mul_left (cs - ov) (by omega)
      have hexp : (cs - ov) * (i + 2) = (cs - ov) * i + (cs - ov) * 2 := by
        ring
      rw [hexp] at hmul
      have hcomm : i * (cs - ov) = (cs - ov) * i := Nat.mul_comm i (cs - ov)
      rw [hcomm]
      constructor
      · omega
      · generalize hA : (cs - ov) * i = A at *
        generalize hB : (cs - ov) * ((ws.length + (cs - ov) - 1) / (cs - ov)) = B at *
        omega
    refine ⟨hstep, ?_⟩
    refine ⟨_, hwin, ?_⟩
    have hlenall : ((List.range ((ws.length + (cs - ov) - 1) / (cs - ov))).map
        (fun i => (ws.drop (i * (cs - ov))).take cs)).length =
        (ws.length + (cs - ov) - 1) / (cs - ov) := by
      simp
    have := length_filter_of_all_but_last ([] : List String)
      (fun cw => 20 ≤ cw.length)
      ((List.range ((ws.length + (cs - ov) - 1) / (cs - ov))).map
        (fun i => (ws.drop (i * (cs - ov))).take cs)) ?_
    · omega
    · intro i hi
      rw [hlenall] at hi
      have hilt : i < (ws.length + (cs - ov) - 1) / (cs - ov) := by omega
      have hget : ((List.range ((ws.length + (cs - ov) - 1) / (cs - ov))).map
          (fun i => (ws.drop (i * (cs - ov))).take cs)).getD i [] =
          (ws.drop (i * (cs - ov))).take cs := by
        rw [List.getD_eq_getElem?_getD, List.getElem?_map,
          List.getElem?_range hilt]
        rfl
      rw [hget]
      simpa using hstep i (by omega)

/-- Claim C5 witness: the amended statement evaluated with the default
configuration chunk_size 250, overlap 50 (step 200 ≥ 20) on a concrete
30-word list. -/
theorem claim_C5_witness :
    ((50 : Nat) < 250 ∧ 20 ≤ 250 - 50) ∧
    (∀ L, chunk_windows 250 50 wsW30 = some L → ∀ w ∈ L, 20 ≤ w.length) ∧
    (∀ i, i + 1 < (wsW30.length + (250 - 50) - 1) / (250 - 50) →
      20 ≤ ((wsW30.drop (i * (250 - 50))).take 250).length) ∧
    ∃ L, chunk_windows 250 50 wsW30 = some L ∧
      (wsW30.length + (250 - 50) - 1) / (250 - 50) ≤ L.length + 1 :=
  ⟨⟨by decide, by decide⟩,
   (claim_C5_min_floor 250 50 wsW30 (by decide)).1,
   ((claim_C5_min_floor 250 50 wsW30 (by decide)).2 (by decide)).1,
   ((claim_C5_min_floor 250 50 wsW30 (by decide)).2 (by decide)).2⟩

/-- Claim C5 counterexample: with chunk_size 21, overlap 20 (step 1) on a
30-word list there are 30 windows; window 11 is not the last yet has only 19
words, and only 11 of the 30 windows are kept, so windows other than the
final one are dropped, contradicting the claim that the under-20-words drop
rule affects only the final window. -/
theorem claim_C5_counterexample :
    (11 + 1 < (wsW30.length + (21 - 20) - 1) / (21 - 20) ∧
     ¬ 20 ≤ ((wsW30.drop (11 * (21 - 20))).take 21).length) ∧
    (chunk_windows 21 20 wsW30).map List.length = some 11 ∧
    (wsW30.length + (21 - 20) - 1) / (21 - 20) = 30 := by
  refine ⟨⟨by decide, by decide⟩, by decide, by decide⟩

/-- Claim C10: a query with no word tokens (empty or punctuation-only)
produces the empty result list and no error: the overlap > 0 guard can never
hold when the query token set is empty, so the similarity division by the
query token count is unreachable. -/
theorem claim_C10_empty_query (chunks : List StoredChunk) (query : String)
    (top_k : Nat) (hq : tokenSet query = []) :
    search_chunks chunks query top_k = [] := by
  have hnone : ∀ c, scoreChunk [] c = none := by
    intro c
    simp [scoreChunk]
  have hs : scoredResults chunks query = [] := by
    unfold scoredResults
    rw [hq]
    induction chunks with
    | nil => rfl
    | cons c t ih => rw [List.filterMap_cons, hnone c, ih]
  simp [search_chunks, hs]

/-- Claim C10 witness: the empty query over a concrete nonempty store. -/
theorem claim_C10_witness :
    tokenSet ("") = [] ∧ search_chunks exChunks ("") 5 = [] :=
  ⟨by decide, claim_C10_empty_query exChunks ("") 5 (by decide)⟩

/-- Stability of orderedInsert with respect to the elements of a fixed
similarity: inserting x threads past only strictly larger similarities. -/
theorem filter_sim_orderedInsert (s : ℚ) (x : SearchResult) :
    ∀ l : List SearchResult,
      (List.orderedInsert simGE x l).filter (fun r => r.similarity = s) =
        if x.similarity = s then
          x :: l.filter (fun r => r.similarity = s)
        else l.filter (fun r => r.similarity = s) := by
  intro l
  induction l with
  | nil =>
    by_cases hxs : x.similarity = s
    · simp [List.orderedInsert, hxs]
    · simp [List.orderedInsert, hxs]
  | cons b t ih =>
    rw [List.orderedInsert]
    by_cases hxb : simGE x b
    · rw [if_pos hxb]
      by_cases hxs : x.similarity = s
      · simp [List.filter_cons, hxs]
      · simp [List.filter_cons, hxs]
    · rw [if_neg hxb]
      have hlt : x.similarity < b.similarity := not_le.mp hxb
      by_cases hbs : b.similarity = s
      · have hxs : x.similarity ≠ s := by
          rw [← hbs]
          exact ne_of_lt hlt
        simp [List.filter_cons, hbs, hxs, ih]
      · by_cases hxs : x.similarity = s
        · simp [List.filter_cons, hbs, hxs, ih]
        · simp [List.filter_cons, hbs, hxs, ih]

/-- Stability of the modelled sort: for every similarity value, the sorted
list restricted to that value keeps the original (insertion) order. -/
theorem filter_sim_insertionSort (s : ℚ) :
    ∀ l : List SearchResult,
      (List.insertionSort simGE l).filter (fun r => r.similarity = s) =
        l.filter (fun r => r.similarity = s) := by
  intro l
  induction l with
  | nil => rfl
  | cons b t ih =>
    rw [List.insertionSort, filter_sim_orderedInsert]
    by_cases hbs : b.similarity = s
    · rw [if_pos hbs, ih, List.filter_cons, if_pos (by simp [hbs])]
    · rw [if_neg hbs, ih, List.filter_cons, if_neg (by simp [hbs])]

/-- Claim C3: lexical search returns at most top_k results, sorted by
similarity descending; every result comes from a stored chunk with nonzero
token overlap and carries the score overlap / query-token-count; the output
is a prefix of the stably sorted scored list, and the sort preserves storage
(insertion) order within each similarity value, so ties favour the
earlier-inserted chunk. -/
theorem claim_C3_lexical_search (chunks : List StoredChunk) (query : String)
    (top_k : Nat) :
    (search_chunks chunks query top_k).length ≤ top_k ∧
    List.Pairwise simGE (search_chunks chunks query top_k) ∧
    (∀ r ∈ search_chunks chunks query top_k, ∃ c ∈ chunks,
      0 < overlapCount query c ∧
      r.similarity = (overlapCount query c : ℚ) / (((tokenSet query).length : ℚ)) ∧
      r.content = c.content ∧ r.paper_id = c.paper_id ∧
      r.title = c.title ∧ r.chunk_index = c.chunk_index) ∧
    search_chunks chunks query top_k <+:
      List.insertionSort simGE (scoredResults chunks query) ∧
    ∀ s : ℚ,
      (List.insertionSort simGE (scoredResults chunks query)).filter
          (fun r => r.similarity = s) =
        (scoredResults chunks query).filter (fun r => r.similarity = s) := by
  refine ⟨?_, ?_, ?_, ?_, ?_⟩
  · rw [search_chunks, List.length_take]
    exact min_le_left _ _
  · exact List.Pairwise.sublist (List.take_sublist _ _)
      (List.sorted_insertionSort simGE _)
  · intro r hr
    have hr2 : r ∈ List.insertionSort simGE (scoredResults chunks query) :=
      List.take_subset _ _ hr
    have hr3 : r ∈ scoredResults chunks query :=
      (List.perm_insertionSort simGE _).subset hr2
    obtain ⟨c, hc, hsc⟩ := List.mem_filterMap.mp hr3
    refine ⟨c, hc, ?_⟩
    simp only [scoreChunk] at hsc
    by_cases hov :
        0 < ((tokenSet c.content).filter (fun w => w ∈ tokenSet query)).length
    · rw [if_pos hov] at hsc
      have hre := Option.some.inj hsc
      subst hre
      exact ⟨hov, rfl, rfl, rfl, rfl, rfl⟩
    · rw [if_neg hov] at hsc
      exact absurd hsc (by simp)
  · exact ⟨(List.insertionSort simGE (scoredResults chunks query)).drop top_k,
      List.take_append_drop _ _⟩
  · intro s
    exact filter_sim_insertionSort s _

/-- Evaluation of the modelled lexical search on the concrete example: the
two-token-overlap chunk ranks first with similarity 1, the one-token-overlap
chunk second with similarity 1 / 2. -/
theorem exSearch_eval : search_chunks exChunks ("alpha beta") 2 = [exR1, exR2] := by
  have hq : (tokenSet ("alpha beta")).length = 2 := by decide
  have hov1 : ((tokenSet ("alpha beta")).filter
      (fun w => w ∈ tokenSet ("alpha beta"))).length = 2 := by decide
  have hov2 : ((tokenSet ("alpha gamma")).filter
      (fun w => w ∈ tokenSet ("alpha beta"))).length = 1 := by decide
  have hc1 : scoreChunk (tokenSet ("alpha beta")) exC1 = some exR1 := by
    simp only [scoreChunk, exC1, hov1, hq]
    norm_num [exR1]
  have hc2 : scoreChunk (tokenSet ("alpha beta")) exC2 = some exR2 := by
    simp only [scoreChunk, exC2, hov2, hq]
    norm_num [exR2]
  have hs : scoredResults exChunks ("alpha beta") = [exR1, exR2] := by
    simp only [scoredResults, exChunks, List.filterMap_cons, hc1, hc2,
      List.filterMap_nil]
  rw [search_chunks, hs]
  have hge : simGE exR1 exR2 := by
    simp only [simGE, exR1, exR2]
    norm_num
  simp [List.insertionSort, List.orderedInsert, hge]

/-- Claim C3 witness: over two concrete chunks, the query alpha beta ranks
the two-token-overlap chunk first with similarity 2 / 2 = 1, and that result
satisfies the per-result score characterization. -/
theorem claim_C3_witness :
    exR1 ∈ search_chunks exChunks ("alpha beta") 2 ∧
    ∃ c ∈ exChunks, 0 < overlapCount ("alpha beta") c ∧
      exR1.similarity =
        (overlapCount ("alpha beta") c : ℚ) /
          (((tokenSet ("alpha beta")).length : ℚ)) ∧
      exR1.content = c.content ∧ exR1.paper_id = c.paper_id ∧
      exR1.title = c.title ∧ exR1.chunk_index = c.chunk_index :=
  ⟨by rw [exSearch_eval]; exact List.mem_cons_self _ _,
   (claim_C3_lexical_search exChunks ("alpha beta") 2).2.2.1 exR1
     (by rw [exSearch_eval]; exact List.mem_cons_self _ _)⟩

/-- Claim C1 (amended): every retrieved chunk's reported similarity is
1 - distance only when the distance is present and nonzero; when the backend
distance is 0 or missing, the Python truthiness test sends the conversion to
its else branch and the reported similarity is 0 — in particular a
zero-distance chunk gets similarity 0, not 1. -/
theorem claim_C1_similarity (objs : List WeaviateObject) :
    (search_relevant_chunks objs).length = objs.length ∧
    ∀ r ∈ search_relevant_chunks objs, ∃ o ∈ objs,
      r.content = o.content_chunk ∧ r.paper_id = o.paper_id ∧
      (∀ d : ℚ, o.distance = some d → d ≠ 0 → r.similarity = 1 - d) ∧
      ((o.distance = none ∨ o.distance = some 0) → r.similarity = 0) := by
  constructor
  · simp [search_relevant_chunks]
  · intro r hr
    obtain ⟨o, ho, hro⟩ := List.mem_map.mp hr
    refine ⟨o, ho, ?_, ?_, ?_, ?_⟩
    · rw [← hro]
    · rw [← hro]
    · intro d hd hdz
      rw [← hro]
      show pySimilarity o.distance = 1 - d
      rw [hd]
      simp [pySimilarity, hdz]
    · intro hcase
      rw [← hro]
      show pySimilarity o.distance = 0
      rcases hcase with h | h <;> simp [pySimilarity, h]

/-- Claim C1 witness: the amended statement evaluated on a single retrieved
object with distance 1 / 2, whose reported similarity is 1 - 1 / 2. -/
theorem claim_C1_witness :
    exRHalf ∈ search_relevant_chunks [exObjHalf] ∧
    ∃ o ∈ [exObjHalf],
      exRHalf.content = o.content_chunk ∧ exRHalf.paper_id = o.paper_id ∧
      (∀ d : ℚ, o.distance = some d → d ≠ 0 → exRHalf.similarity = 1 - d) ∧
      ((o.distance = none ∨ o.distance = some 0) → exRHalf.similarity = 0) := by
  have heval : search_relevant_chunks [exObjHalf] = [exRHalf] := by
    simp only [search_relevant_chunks, List.map_cons, List.map_nil,
      exObjHalf, exRHalf, pySimilarity]
    norm_num
  have hmem : exRHalf ∈ search_relevant_chunks [exObjHalf] := by
    rw [heval]
    exact List.mem_cons_self _ _
  exact ⟨hmem, (claim_C1_similarity [exObjHalf]).2 exRHalf hmem⟩

/-- Claim C1 counterexample: a retrieved chunk whose backend distance is 0 is
reported with similarity 0, not 1 - 0 = 1, refuting the claim that the
similarity always equals 1 - distance and that zero-distance chunks get
similarity 1. -/
theorem claim_C1_counterexample :
    (search_relevant_chunks [exObj0]).map (fun r => r.similarity) = [0] ∧
    ¬ ((0 : ℚ) = 1 - 0) := by
  constructor
  · simp [search_relevant_chunks, exObj0, pySimilarity]
  · norm_num

/-- formatSourcesAux only inspects the seen accumulator through membership. -/
theorem formatSourcesAux_congr (s1 s2 : List String)
    (h : ∀ x, x ∈ s1 ↔ x ∈ s2) :
    ∀ l, formatSourcesAux s1 l = formatSourcesAux s2 l := by
  intro l
  induction l generalizing s1 s2 with
  | nil => rfl
  | cons c rest ih =>
    simp only [formatSourcesAux]
    by_cases hc : c.paper_id ∈ s1
    · rw [if_pos hc, if_pos ((h _).mp hc), ih s1 s2 h]
    · rw [if_neg hc, if_neg (fun hx => hc ((h _).mpr hx))]
      rw [ih (c.paper_id :: s1) (c.paper_id :: s2) (by intro x; simp [h x])]

/-- Marking an id as seen is the same as deleting its later occurrences. -/
theorem formatSourcesAux_seen_filter (p : String) :
    ∀ (l : List SearchResult) (seen : List String),
      formatSourcesAux (p :: seen) l =
        formatSourcesAux seen (l.filter (fun d => d.paper_id ≠ p)) := by
  intro l
  induction l with
  | nil => intro seen; rfl
  | cons c rest ih =>
    intro seen
    by_cases hcp : c.paper_id = p
    · have hfil : (c :: rest).filter (fun d => d.paper_id ≠ p) =
          rest.filter (fun d => d.paper_id ≠ p) := by
        simp [List.filter_cons, hcp]
      rw [hfil, ← ih seen]
      simp only [formatSourcesAux]
      rw [if_pos (by simp [hcp])]
    · have hfil : (c :: rest).filter (fun d => d.paper_id ≠ p) =
          c :: rest.filter (fun d => d.paper_id ≠ p) := by
        simp [List.filter_cons, hcp]
      rw [hfil]
      simp only [formatSourcesAux]
      by_cases hseen : c.paper_id ∈ seen
      · rw [if_pos (by simp [hseen]), if_pos hseen, ih seen]
      · rw [if_neg (by simp [hcp, hseen]), if_neg hseen]
        rw [formatSourcesAux_congr (c.paper_id :: p :: seen)
          (p :: c.paper_id :: seen) (by intro x; simp; tauto) rest]
        rw [ih (c.paper_id :: seen)]

/-- The loop of _format_sources computes the first chunk per distinct
paper_id, mapped through the source formatter (length-bounded version for the
induction). -/
theorem format_sources_eq_aux :
    ∀ (n : Nat) (l : List SearchResult), l.length ≤ n →
      formatSourcesAux [] l = (firstPerId l).map mkSource := by
  intro n
  induction n with
  | zero =>
    intro l h
    have hl : l = [] := List.length_eq_zero.mp (Nat.le_zero.mp h)
    subst hl
    simp [formatSourcesAux, firstPerId]
  | succ n ih =>
    intro l h
    match l with
    | [] => simp [formatSourcesAux, firstPerId]
    | c :: rest =>
      have hlen : (rest.filter (fun d => d.paper_id ≠ c.paper_id)).length ≤ n := by
        have h1 := List.length_filter_le (fun d => d.paper_id ≠ c.paper_id) rest
        simp only [List.length_cons] at h
        omega
      simp only [formatSourcesAux]
      rw [if_neg (List.not_mem_nil _)]
      rw [formatSourcesAux_seen_filter c.paper_id rest []]
      rw [ih _ hlen]
      rw [firstPerId]
      simp

/-- firstPerId is a sublist of its input (length-bounded version). -/
theorem firstPerId_sublist_aux :
    ∀ (n : Nat) (l : List SearchResult), l.length ≤ n → List.Sublist (firstPerId l) l := by
  intro n
  induction n with
  | zero =>
    intro l h
    have hl : l = [] := List.length_eq_zero.mp (Nat.le_zero.mp h)
    subst hl
    simp [firstPerId]
  | succ n ih =>
    intro l h
    match l with
    | [] => simp [firstPerId]
    | c :: rest =>
      have hlen : (rest.filter (fun d => d.paper_id ≠ c.paper_id)).length ≤ n := by
        have h1 := List.length_filter_le (fun d => d.paper_id ≠ c.paper_id) rest
        simp only [List.length_cons] at h
        omega
      rw [firstPerId]
      exact (ih _ hlen).trans (List.filter_sublist _) |>.cons₂ c

/-- The paper ids kept by firstPerId are pairwise distinct (length-bounded
version). -/
theorem firstPerId_nodup_aux :
    ∀ (n : Nat) (l : List SearchResult), l.length ≤ n →
      ((firstPerId l).map (fun c => c.paper_id)).Nodup := by
  intro n
  induction n with
  | zero =>
    intro l h
    have hl : l = [] := List.length_eq_zero.mp (Nat.le_zero.mp h)
    subst hl
    simp [firstPerId]
  | succ n ih =>
    intro l h
    match l with
    | [] => simp [firstPerId]
    | c :: rest =>
      have hlen : (rest.filter (fun d => d.paper_id ≠ c.paper_id)).length ≤ n := by
        have h1 := List.length_filter_le (fun d => d.paper_id ≠ c.paper_id) rest
        simp only [List.length_cons] at h
        omega
      rw [firstPerId]
      simp only [List.map_cons, List.nodup_cons]
      refine ⟨?_, ih _ hlen⟩
      intro hmem
      obtain ⟨d, hd, hdc⟩ := List.mem_map.mp hmem
      have hdf : d ∈ rest.filter (fun x => x.paper_id ≠ c.paper_id) :=
        (firstPerId_sublist_aux n _ hlen).subset hd
      have := List.of_mem_filter hdf
      simp at this
      exact this hdc

/-- Claim C6: the citation list of a ranked chunk list is exactly the first
chunk per distinct paper_id, formatted as {title, authors, doi, chunk_index};
its paper ids are pairwise distinct (at most one entry per id) and the kept
chunks form a sublist of the ranked input, in ranked order. -/
theorem claim_C6_citation_dedup (chunks : List SearchResult) :
    format_sources chunks = (firstPerId chunks).map mkSource ∧
    ((firstPerId chunks).map (fun c => c.paper_id)).Nodup ∧
    List.Sublist (firstPerId chunks) chunks :=
  ⟨format_sources_eq_aux chunks.length chunks le_rfl,
   firstPerId_nodup_aux chunks.length chunks le_rfl,
   firstPerId_sublist_aux chunks.length chunks le_rfl⟩

/-- Claim C7: when retrieval returns no chunks, chat_with_papers and
generate_gap_analysis short-circuit with success = false and their
descriptive error messages, and make zero calls to the completion service,
for every completion function. -/
theorem claim_C7_empty_retrieval
    (search : String → Nat → List SearchResult)
    (complete : List ChatMessage → Except String String)
    (question topic : String) (history : List ChatMessage)
    (hq : search question 8 = []) (ht : search topic 10 = []) :
    chat_with_papers search complete question history =
      ({ success := false,
         error := "No relevant information found in the papers",
         answer := "", sources := [] }, 0) ∧
    generate_gap_analysis search complete topic =
      ({ success := false,
         error := "No relevant papers found for the given topic",
         analysis := "", sources := [] }, 0) := by
  constructor
  · simp [chat_with_papers, hq]
  · simp [generate_gap_analysis, ht]

/-- Claim C7 witness: an always-empty retrieval layer with an arbitrary
completion function, at the question xyz_no_match. -/
theorem claim_C7_witness :
    ((fun (_ : String) (_ : Nat) => ([] : List SearchResult)) "xyz_no_match" 8
        = [] ∧
     (fun (_ : String) (_ : Nat) => ([] : List SearchResult)) "topic" 10 = []) ∧
    chat_with_papers (fun _ _ => []) (fun _ => Except.ok ("unused"))
        "xyz_no_match" [] =
      ({ success := false,
         error := "No relevant information found in the papers",
         answer := "", sources := [] }, 0) ∧
    generate_gap_analysis (fun _ _ => []) (fun _ => Except.ok ("unused"))
        "topic" =
      ({ success := false,
         error := "No relevant papers found for the given topic",
         analysis := "", sources := [] }, 0) :=
  ⟨⟨rfl, rfl⟩,
   claim_C7_empty_retrieval (fun _ _ => []) (fun _ => Except.ok ("unused"))
     "xyz_no_match" "topic" [] rfl rfl⟩

/-- Claim C9 (amended): no StoreUnavailable error exists and insertion
failures do not propagate: when every insert call fails with a non-quota
error message (for example an unreachable backend), every chunk is skipped
with a warning and insert_papers still returns True having inserted nothing;
only quota/429 messages abort, and even then the raised ValueError is caught
and converted to a False return. -/
theorem claim_C9_insert_swallows
    (ins : InsertChunkData → Except String Unit) (uuid : Nat → String)
    (papers : List PaperData) (msg : String)
    (hall : ∀ d, ins d = Except.error msg) :
    (isQuotaError msg = false → insert_papers ins uuid papers = (true, 0)) ∧
    (isQuotaError msg = true → ∀ p ps, papers = p :: ps → p.chunks ≠ [] →
      insert_papers ins uuid papers = (false, 0)) := by
  constructor
  · intro hq
    have hchunks : ∀ p pid chunks idx acc,
        insertChunksLoop ins p pid chunks idx acc = Except.ok acc := by
      intro p pid chunks
      induction chunks with
      | nil => intro idx acc; rfl
      | cons c rest ih =>
        intro idx acc
        simp only [insertChunksLoop, hall, hq]
        exact ih (idx + 1) acc
    have hloop : ∀ ps i, insertPapersLoop ins uuid ps i 0 = Except.ok 0 := by
      intro ps
      induction ps with
      | nil => intro i; rfl
      | cons p rest ih =>
        intro i
        simp only [insertPapersLoop, hchunks]
        exact ih (i + 1)
    simp [insert_papers, hloop]
  · intro hq p ps hps hchunks
    subst hps
    match hc : p.chunks with
    | [] => exact absurd hc hchunks
    | c :: cs =>
      have h1 : insertChunksLoop ins p (uuid 0) (c :: cs) 0 0 =
          Except.error 0 := by
        simp only [insertChunksLoop, hall, hq]
        rfl
      simp only [insert_papers, insertPapersLoop, hc, h1]

/-- Claim C9 witness: a backend that always fails with a connection error;
the batch of one two-chunk paper is reported successful with zero chunks
written. -/
theorem claim_C9_witness :
    ((∀ d : InsertChunkData,
        (fun (_ : InsertChunkData) => Except.error ("boom")) d =
          (Except.error ("boom") : Except String Unit)) ∧
     isQuotaError ("boom") = false) ∧
    insert_papers (fun _ => Except.error ("boom")) (fun _ => "p0") [exPaper] =
      (true, 0) :=
  ⟨⟨fun _ => rfl, by decide⟩,
   (claim_C9_insert_swallows (fun _ => Except.error ("boom")) (fun _ => "p0")
     [exPaper] ("boom") (fun _ => rfl)).1 (by decide)⟩

/-- Claim C9 counterexample: with a store that cannot be reached (every
insert raises a connection error), insert_papers swallows the failures,
skips both chunks of the paper and returns success True with zero chunks
inserted — the failure neither propagates nor fails the call, contradicting
the claim. -/
theorem claim_C9_counterexample :
    insert_papers (fun _ => Except.error ("connection refused"))
      (fun _ => "p0") [exPaper] = (true, 0) ∧
    exPaper.chunks.length = 2 := by
  constructor
  · decide
  · decide

/-- Dividing every entry of a vector by c divides its sum of squares by
c squared. -/
theorem sum_sq_div (c : ℝ) :
    ∀ v : List ℚ,
      (v.map (fun x : ℚ => (((x : ℝ)) / c) ^ 2)).sum =
        (v.map (fun x : ℚ => ((x : ℝ)) ^ 2)).sum / c ^ 2 := by
  intro v
  induction v with
  | nil => simp
  | cons a t ih =>
    simp only [List.map_cons, List.sum_cons, ih]
    rw [div_pow, add_div]

/-- The rational sum of squares agrees with the real one. -/
theorem sumSq_cast :
    ∀ v : List ℚ,
      ((sumSq v : ℚ) : ℝ) = (v.map (fun x : ℚ => ((x : ℝ)) ^ 2)).sum := by
  intro v
  induction v with
  | nil => simp [sumSq]
  | cons a t ih =>
    simp only [sumSq, List.map_cons, List.sum_cons] at ih ⊢
    rw [Rat.cast_add, Rat.cast_mul, ih]
    ring

/-- Claim C8: the mock vectorizer always returns a vector of exactly
vector_dim entries; it is a pure function of the text (two calls on the same
text give identical vectors); and whenever the pre-normalization vector is
nonzero (positive sum of squares), the L2-normalized vector produced by the
final division has squared norm exactly 1. The operation is total, hence
never fails. -/
theorem claim_C8_mock_vectorizer (hashSeed : String → Nat)
    (prng : Nat → Nat → ℚ) (vector_dim : Nat) (text : String) :
    (preVector hashSeed prng vector_dim text).length = vector_dim ∧
    preVector hashSeed prng vector_dim text =
      preVector hashSeed prng vector_dim text ∧
    (0 < sumSq (preVector hashSeed prng vector_dim text) →
      ((preVector hashSeed prng vector_dim text).map
        (fun x : ℚ => (((x : ℝ)) /
          Real.sqrt ((sumSq (preVector hashSeed prng vector_dim text) : ℚ) : ℝ))
            ^ 2)).sum = 1) := by
  refine ⟨by simp [preVector], rfl, ?_⟩
  intro hpos
  have hSR : (0 : ℝ) < ((sumSq (preVector hashSeed prng vector_dim text) : ℚ) : ℝ) := by
    exact_mod_cast hpos
  rw [sum_sq_div]
  rw [← sumSq_cast]
  rw [Real.sq_sqrt (le_of_lt hSR)]
  exact div_self (ne_of_gt hSR)

/-- Claim C8 witness: dimension 1 and the text a; the single entry is
(97 / 255) * 2 - 1 ≠ 0, so the squared norm of the normalized vector is 1. -/
theorem claim_C8_witness :
    0 < sumSq (preVector (fun _ => 0) (fun _ _ => 0) 1 ("a")) ∧
    (preVector (fun _ => 0) (fun _ _ => 0) 1 ("a")).length = 1 ∧
    ((preVector (fun _ => 0) (fun _ _ => 0) 1 ("a")).map
      (fun x : ℚ => (((x : ℝ)) /
        Real.sqrt ((sumSq (preVector (fun _ => 0) (fun _ _ => 0) 1 ("a")) : ℚ) : ℝ))
          ^ 2)).sum = 1 := by
  have hpre : preVector (fun _ => 0) (fun _ _ => 0) 1 ("a") =
      [(((('a').toNat : ℚ))) / 255 * 2 - 1] := by
    have hr1 : List.range 1 = [0] := by decide
    simp [preVector, hr1]
  have hpos : 0 < sumSq (preVector (fun _ => 0) (fun _ _ => 0) 1 ("a")) := by
    rw [hpre, show ('a').toNat = 97 from rfl]
    simp [sumSq]
    norm_num
  have h := claim_C8_mock_vectorizer (fun _ => 0) (fun _ _ => 0) 1 ("a")
  exact ⟨hpos, h.1, h.2.2 hpos⟩

end LitReviewRag
